import Mathlib

/-!
Verification of the intake-stac adapter layer.

The repository is a thin adapter exposing STAC metadata objects (Catalogs,
Collections, Items, Assets, ItemCollections) as entries of a generic
cataloging framework.  The adapter's own logic is: lazy child-wrapper
construction with per-instance caching, recursive substring search over
descendant entries, a static media-type-to-driver dispatch table with
file-extension fallback heuristics, keyword-argument merging, and delegation
to external array loaders.  The Python package sources are not part of the
docs/CI snapshot available here, so the adapter is modelled from the design
specification; each such definition is marked `Modelled from the spec:`.
-/

namespace IntakeStac

/-- Modelled from the spec: the value of one open-time loader keyword
argument carried in an Asset's extension metadata (e.g. `consolidated: true`). -/
inductive KwVal where
  | boolV : Bool → KwVal
  | strV : String → KwVal
  | natV : Nat → KwVal
deriving DecidableEq, Repr

/-- A set of loader keyword arguments, as an association list. -/
abbrev Kwargs := List (String × KwVal)

/-- First-match association-list lookup (string keys). -/
def lookupA {α : Type} : List (String × α) → String → Option α
  | [], _ => none
  | (k, v) :: rest, key => if k = key then some v else lookupA rest key

/-- Modelled from the spec: asset-level keyword arguments are merged over the
dispatch table's defaults, with the asset-level values taking precedence on
key collision. -/
def mergeKwargs (defaults assetKw : Kwargs) : Kwargs :=
  defaults.filter (fun p => (lookupA assetKw p.1).isNone) ++ assetKw

/-- Modelled from the spec: one STAC Asset — href/URL, declared media type
string, optional title, and loader keyword arguments from extension
metadata (the xarray-assets open_kwargs convention). -/
structure Asset where
  href : String
  media_type : String
  title : Option String
  open_kwargs : Kwargs
deriving Repr

/-- Modelled from the spec: the externally parsed STAC object graph.
A Catalog or Collection holds id/title/description and child nodes (in link
order); an Item holds id/title/description and a keyed mapping of Assets. -/
inductive StacNode where
  | catalog : String → Option String → Option String → List StacNode → StacNode
  | collection : String → Option String → Option String → List StacNode → StacNode
  | item : String → Option String → Option String → List (String × Asset) → StacNode
deriving Repr

/-- Identifier of a parsed STAC node. -/
def nodeId : StacNode → String
  | .catalog i _ _ _ => i
  | .collection i _ _ _ => i
  | .item i _ _ _ => i

/-- Title of a parsed STAC node. -/
def nodeTitle : StacNode → Option String
  | .catalog _ t _ _ => t
  | .collection _ t _ _ => t
  | .item _ t _ _ => t

/-- Description field of a parsed STAC node. -/
def nodeDescription : StacNode → Option String
  | .catalog _ _ d _ => d
  | .collection _ _ d _ => d
  | .item _ _ d _ => d

/-- Child identifiers of a node, in the order of the links/references in the
underlying metadata object (asset keys, for an Item). -/
def childKeys : StacNode → List String
  | .catalog _ _ _ cs => cs.map nodeId
  | .collection _ _ _ cs => cs.map nodeId
  | .item _ _ _ as => as.map Prod.fst

/-- Child STAC nodes of a Catalog/Collection node (an Item's children are
Assets, not nodes). -/
def subNodes : StacNode → List StacNode
  | .catalog _ _ _ cs => cs
  | .collection _ _ _ cs => cs
  | .item _ _ _ _ => []

/-- Modelled from the spec: the adapter's error conditions. -/
inductive StacError where
  | KeyNotFound : String → StacError
  | UnsupportedAssetType : StacError
deriving DecidableEq, Repr

/-- Modelled from the spec: the observable state of one Catalog/Collection/Item
wrapper.  `cache` maps each already-constructed child key to the instance
identifier of its wrapper (populated lazily, never evicted); `nextId` is the
next fresh instance identifier; `parses` counts external parses performed on
behalf of child construction. -/
structure WrapperState where
  node : StacNode
  cache : List (String × Nat)
  nextId : Nat
  parses : Nat
deriving Repr

/-- Modelled from the spec: constructing a wrapper eagerly discovers only the
identifiers of children (a cheap metadata scan); no child wrapper is
constructed and no external parse is performed at construction time. -/
def mkWrapper (n : StacNode) : WrapperState :=
  ⟨n, [], 0, 0⟩

/-- Modelled from the spec: ordered sequence of child identifiers, order equal
to the order of links/references in the underlying metadata object. -/
def list_keys (s : WrapperState) : List String :=
  childKeys s.node

/-- Modelled from the spec: `get(key)` returns the child wrapper for that
identifier (as its instance identifier together with the updated wrapper
state), constructed lazily on first access and cached for the wrapper's
lifetime; fails with `KeyNotFound` when the key is absent. -/
def get (s : WrapperState) (k : String) : Except StacError (Nat × WrapperState) :=
  if k ∈ list_keys s then
    match lookupA s.cache k with
    | some i => .ok (i, s)
    | none => .ok (s.nextId, ⟨s.node, s.cache ++ [(k, s.nextId)], s.nextId + 1, s.parses + 1⟩)
  else
    .error (.KeyNotFound k)

/-- Boolean test: the first character list starts with the second. -/
def isPrefixOfB : List Char → List Char → Bool
  | [], _ => true
  | _ :: _, [] => false
  | a :: as, b :: bs => a == b && isPrefixOfB as bs

/-- Boolean test: the first character list occurs contiguously in the second. -/
def isSubstrB (sub : List Char) : List Char → Bool
  | [] => isPrefixOfB sub []
  | c :: rest => isPrefixOfB sub (c :: rest) || isSubstrB sub rest

/-- Case-sensitive substring containment on strings. -/
def strContainsB (s pat : String) : Bool :=
  isSubstrB pat.data s.data

/-- Substring containment lifted to optional fields (a missing field never
matches). -/
def optContainsB : Option String → String → Bool
  | none, _ => false
  | some s, pat => strContainsB s pat

/-- The displayed metadata of one descendant entry: identifier, title,
description. -/
abbrev EntryMeta := String × Option String × Option String

/-- Modelled from the spec: an entry matches a search term when its id,
title, or description contains the term as a case-sensitive substring. -/
def entryMatchesB (term : String) (e : EntryMeta) : Bool :=
  strContainsB e.1 term || optContainsB e.2.1 term || optContainsB e.2.2 term

/-- The displayed metadata of a node, viewed as a search entry. -/
def nodeEntry (n : StacNode) : EntryMeta :=
  (nodeId n, nodeTitle n, nodeDescription n)

/-- The displayed metadata of a keyed Asset, viewed as a search entry
(an Asset carries no description field). -/
def assetEntry (ka : String × Asset) : EntryMeta :=
  (ka.1, ka.2.title, none)

/-- Modelled from the spec: the search traversal over an Item's Assets,
collecting the keys of the matching asset entries in traversal order. -/
def searchAssets (term : String) : List (String × Asset) → List String
  | [] => []
  | ka :: rest =>
      (if entryMatchesB term (assetEntry ka) then [ka.1] else []) ++ searchAssets term rest

/-- Modelled from the spec: the recursive search traversal.  It visits every
descendant at every depth (constructing its wrapper), and collects the
identifiers of the entries whose id/title/description contains the term. -/
def searchChildren (term : String) : List StacNode → List String
  | [] => []
  | .catalog i t d cs :: rest =>
      (if entryMatchesB term (i, t, d) then [i] else []) ++
        (searchChildren term cs ++ searchChildren term rest)
  | .collection i t d cs :: rest =>
      (if entryMatchesB term (i, t, d) then [i] else []) ++
        (searchChildren term cs ++ searchChildren term rest)
  | .item i t d as :: rest =>
      (if entryMatchesB term (i, t, d) then [i] else []) ++
        (searchAssets term as ++ searchChildren term rest)

/-- Modelled from the spec: `search(term)` walks all descendant levels of the
wrapped node and returns the keys of the result mapping, in traversal order. -/
def search (s : WrapperState) (term : String) : List String :=
  searchChildren term (subNodes s.node)

/-- The displayed metadata of every descendant entry of a list of nodes, at
every depth, in traversal order (each node, then its descendants, then its
siblings; an Item contributes its keyed Assets). -/
def descEntriesList : List StacNode → List EntryMeta
  | [] => []
  | .catalog i t d cs :: rest =>
      (i, t, d) :: (descEntriesList cs ++ descEntriesList rest)
  | .collection i t d cs :: rest =>
      (i, t, d) :: (descEntriesList cs ++ descEntriesList rest)
  | .item i t d as :: rest =>
      (i, t, d) :: (as.map assetEntry ++ descEntriesList rest)

/-- Modelled from the spec: the number of child wrappers the search traversal
constructs and caches — one per node visited and one per Asset inspected. -/
def searchConstructions : List StacNode → Nat
  | [] => 0
  | .catalog _ _ _ cs :: rest => 1 + searchConstructions cs + searchConstructions rest
  | .collection _ _ _ cs :: rest => 1 + searchConstructions cs + searchConstructions rest
  | .item _ _ _ as :: rest => 1 + as.length + searchConstructions rest

/-- Modelled from the spec: the static dispatch table from known media-type
strings to an array-loader plugin name and its default open-time keyword
options. -/
def dispatchTable : List (String × String × Kwargs) :=
  [ ("image/tiff; application=geotiff", ("geotiff", [("chunks", KwVal.strV "auto")])),
    ("application/netcdf", ("netcdf", [])),
    ("application/x-grib", ("grib", [])) ]

/-- The file extension of a URL: the characters after the last dot of the
reversed character list, or none when the URL has no dot. -/
def extAfterDot : List Char → Option (List Char)
  | [] => none
  | c :: rest => if c = '.' then some [] else (extAfterDot rest).map (c :: ·)

/-- The file extension of an href, when it has one. -/
def fileExt (href : String) : Option String :=
  (extAfterDot href.data.reverse).map (fun l => String.mk l.reverse)

/-- Modelled from the spec: the fallback heuristics on the URL's file
extension used when no exact media-type match exists. -/
def extDriver : String → Option (String × Kwargs)
  | "tif" => some ("geotiff", [("chunks", KwVal.strV "auto")])
  | "tiff" => some ("geotiff", [("chunks", KwVal.strV "auto")])
  | "nc" => some ("netcdf", [])
  | _ => none

/-- Modelled from the spec: `resolve_driver` matches the asset's declared
media type by exact string against the static dispatch table; failing that,
it falls back to heuristics on the URL's file extension; failing that, it
fails with `UnsupportedAssetType`.  On success it returns the loader name and
the table defaults merged with the asset-level keyword arguments. -/
def resolve_driver (a : Asset) : Except StacError (String × Kwargs) :=
  match lookupA dispatchTable a.media_type with
  | some (drv, defaults) => .ok (drv, mergeKwargs defaults a.open_kwargs)
  | none =>
    match (fileExt a.href).bind extDriver with
    | some (drv, defaults) => .ok (drv, mergeKwargs defaults a.open_kwargs)
    | none => .error .UnsupportedAssetType

/-- The raw URL exposed by an Asset wrapper. -/
def urlpath (a : Asset) : String :=
  a.href

/-- The descriptive metadata exposed by an Asset wrapper. -/
def asset_metadata (a : Asset) : String × Option String × Kwargs :=
  (a.media_type, a.title, a.open_kwargs)

/-- Modelled from the spec: driver resolution together with the asset state it
leaves behind — resolution reads the asset's declared fields and alters none
of them. -/
def resolve_driver_st (a : Asset) : Except StacError (String × Kwargs) × Asset :=
  (resolve_driver a, a)

/-- An error raised by an external array-loader plugin. -/
inductive LoaderError where
  | network : String → LoaderError
  | badFormat : String → LoaderError
deriving DecidableEq, Repr

/-- A lazy array handle: shape metadata without bulk data. -/
structure ArrayHandle where
  dims : List Nat
deriving DecidableEq, Repr

/-- An external array loader: given a driver name, a URL, keyword arguments
and an attempt index, it either fails with its own error or returns a lazy
array handle. -/
abbrev Loader := String → String → Kwargs → Nat → Except LoaderError ArrayHandle

/-- The error surface of `to_array_handle`: either this adapter's own
condition, or the external loader's error carried through unchanged. -/
inductive LoadError where
  | stac : StacError → LoadError
  | loader : LoaderError → LoadError
deriving DecidableEq, Repr

/-- Modelled from the spec: `to_array_handle` resolves a driver for the asset
and invokes the external loader exactly once (attempt 0) with the asset's URL
and merged keyword arguments; loader failures are surfaced to the caller
unmodified, with no retry and no rewrapping beyond the sum injection. -/
def to_array_handle (load : Loader) (a : Asset) : Except LoadError ArrayHandle :=
  match resolve_driver a with
  | .error e => .error (.stac e)
  | .ok (drv, kw) =>
    match load drv (urlpath a) kw 0 with
    | .error le => .error (.loader le)
    | .ok h => .ok h

/-- Modelled from the spec: importing the package registers these driver
entry points in the framework's registry. -/
def registered_drivers : List String :=
  ["stac_catalog", "stac_collection", "stac_item", "stac_item_collection"]

/-- Modelled from the spec: the top-level constructors exposed for the
registered drivers. -/
def top_level_constructors : List String :=
  ["open_stac_catalog", "open_stac_collection", "open_stac_item", "open_stac_item_collection"]

/-- Modelled from the spec: an in-memory ItemCollection (a flat list of Items,
e.g. as returned by a search API) is opened directly as a catalog wrapper
over those items. -/
def open_stac_item_collection (items : List StacNode) : WrapperState :=
  mkWrapper (StacNode.catalog "item-collection" none none items)

/-! ### Helper lemmas -/

theorem lookupA_append {α : Type} (xs ys : List (String × α)) (k : String) :
    lookupA (xs ++ ys) k =
      match lookupA xs k with
      | some v => some v
      | none => lookupA ys k := by
  induction xs with
  | nil => simp [lookupA]
  | cons p rest ih =>
    by_cases h : p.1 = k
    · simp [lookupA, h]
    · simp [lookupA, h, ih]

theorem lookupA_eq_none_of_keys {α : Type} (xs : List (String × α)) (k : String)
    (h : ∀ p ∈ xs, p.1 ≠ k) : lookupA xs k = none := by
  induction xs with
  | nil => rfl
  | cons p rest ih =>
    have hp : p.1 ≠ k := h p (List.mem_cons_self p rest)
    simp only [lookupA, if_neg hp]
    exact ih (fun q hq => h q (List.mem_cons_of_mem p hq))

theorem lookupA_filter_keep {α : Type} (xs : List (String × α)) (k : String)
    (q : String × α → Bool) (hkeep : ∀ p : String × α, p.1 = k → q p = true) :
    lookupA (xs.filter q) k = lookupA xs k := by
  induction xs with
  | nil => rfl
  | cons p rest ih =>
    by_cases h : p.1 = k
    · have := hkeep p h
      simp [List.filter_cons, this, lookupA, h]
    · by_cases hq : q p = true
      · simp [List.filter_cons, hq, lookupA, h, ih]
      · simp only [List.filter_cons, Bool.not_eq_true] at *
        simp [hq, lookupA, h, ih]

theorem lookupKw_merge (defaults assetKw : Kwargs) (k : String) :
    lookupA (mergeKwargs defaults assetKw) k =
      match lookupA assetKw k with
      | some v => some v
      | none => lookupA defaults k := by
  unfold mergeKwargs
  rw [lookupA_append]
  cases hak : lookupA assetKw k with
  | some v =>
    have hnone : lookupA (defaults.filter (fun p => (lookupA assetKw p.1).isNone)) k = none := by
      apply lookupA_eq_none_of_keys
      intro p hp hpk
      have hmem := List.of_mem_filter hp
      rw [hpk, hak] at hmem
      simp at hmem
    rw [hnone]
  | none =>
    have hkeep : ∀ p : String × KwVal, p.1 = k →
        (fun p => (lookupA assetKw p.1).isNone) p = true := by
      intro p hpk
      simp [hpk, hak]
    rw [lookupA_filter_keep defaults k _ hkeep]
    cases lookupA defaults k <;> simp

/-! ### Claim theorems -/

/-- Claim C2: for every Catalog/Collection wrapper state and every key present
in `list_keys`, calling `get` twice returns the identical cached wrapper
instance both times: the first call yields an instance identifier and a state,
and the second call on that state yields the same identifier and leaves the
state (hence the parse count) unchanged; when the child is already
constructed, even the first call performs no parse. -/
theorem get_idempotent_cached (s : WrapperState) (k : String) (h : k ∈ list_keys s) :
    ∃ i s', get s k = Except.ok (i, s') ∧ get s' k = Except.ok (i, s') ∧
      (∀ j, lookupA s.cache k = some j → i = j ∧ s' = s) := by
  cases hc : lookupA s.cache k with
  | some j =>
    refine ⟨j, s, ?_, ?_, ?_⟩
    · simp [get, h, hc]
    · simp [get, h, hc]
    · intro j' hj'
      exact ⟨Option.some_inj.mp hj', rfl⟩
  | none =>
    refine ⟨s.nextId, ⟨s.node, s.cache ++ [(k, s.nextId)], s.nextId + 1, s.parses + 1⟩, ?_, ?_, ?_⟩
    · simp [get, h, hc]
    · have hk2 : k ∈ list_keys (⟨s.node, s.cache ++ [(k, s.nextId)], s.nextId + 1,
          s.parses + 1⟩ : WrapperState) := h
      have hlook : lookupA (s.cache ++ [(k, s.nextId)]) k = some s.nextId := by
        rw [lookupA_append, hc]
        simp [lookupA]
      simp [get, hk2, hlook]
    · intro j hj
      exact absurd hj (by simp)

/-- Claim C2 witness: on a concrete two-child catalog, `get "B1"` twice
returns the same instance. -/
theorem get_idempotent_cached_witness :
    ∃ i s', get (mkWrapper (StacNode.catalog "cat" none none
        [StacNode.item "B1" none none [], StacNode.item "B2" none none []])) "B1" =
        Except.ok (i, s') ∧
      get s' "B1" = Except.ok (i, s') ∧
      (∀ j, lookupA (mkWrapper (StacNode.catalog "cat" none none
        [StacNode.item "B1" none none [], StacNode.item "B2" none none []])).cache "B1" =
          some j → i = j ∧ s' = mkWrapper (StacNode.catalog "cat" none none
        [StacNode.item "B1" none none [], StacNode.item "B2" none none []])) :=
  get_idempotent_cached
    (mkWrapper (StacNode.catalog "cat" none none
      [StacNode.item "B1" none none [], StacNode.item "B2" none none []])) "B1"
    (by simp [list_keys, mkWrapper, childKeys, nodeId])

/-- Claim C3: for every wrapper state and every key absent from `list_keys`,
`get` fails with the `KeyNotFound` condition, surfaced directly to the caller
as the result value. -/
theorem get_missing_key (s : WrapperState) (k : String) (h : k ∉ list_keys s) :
    get s k = Except.error (StacError.KeyNotFound k) := by
  simp [get, h]

/-- Claim C3 witness: a concrete absent key fails with `KeyNotFound`. -/
theorem get_missing_key_witness :
    get (mkWrapper (StacNode.catalog "cat" none none
        [StacNode.item "B1" none none []])) "nope" =
      Except.error (StacError.KeyNotFound "nope") :=
  get_missing_key
    (mkWrapper (StacNode.catalog "cat" none none [StacNode.item "B1" none none []]))
    "nope" (by simp [list_keys, mkWrapper, childKeys, nodeId])

/-- Claim C6: for every wrapper node — Catalog, Collection, or Item — the
exposed child keys are exactly the child identifiers present in the
underlying parsed metadata at construction time, in the order of the
links/references (a plain `map`, so no additions, no deduplication, no
sorting). -/
theorem list_keys_exact (i : String) (t d : Option String)
    (cs : List StacNode) (as : List (String × Asset)) :
    list_keys (mkWrapper (StacNode.catalog i t d cs)) = cs.map nodeId ∧
    list_keys (mkWrapper (StacNode.collection i t d cs)) = cs.map nodeId ∧
    list_keys (mkWrapper (StacNode.item i t d as)) = as.map Prod.fst :=
  ⟨rfl, rfl, rfl⟩

theorem searchAssets_eq (term : String) (as : List (String × Asset)) :
    searchAssets term as = ((as.map assetEntry).filter (entryMatchesB term)).map Prod.fst := by
  induction as with
  | nil => rfl
  | cons ka rest ih =>
    simp only [searchAssets, List.map_cons, List.filter_cons]
    by_cases h : entryMatchesB term (assetEntry ka) = true
    · simp only [assetEntry] at h
      simp [h, ih, assetEntry]
    · simp only [Bool.not_eq_true, assetEntry] at h
      simp [h, ih, assetEntry]

theorem searchChildren_eq (term : String) : (ns : List StacNode) →
    searchChildren term ns = ((descEntriesList ns).filter (entryMatchesB term)).map Prod.fst
  | [] => by simp [searchChildren, descEntriesList]
  | .catalog i t d cs :: rest => by
    have h1 := searchChildren_eq term cs
    have h2 := searchChildren_eq term rest
    simp only [searchChildren, descEntriesList, List.filter_cons, List.filter_append,
      List.map_append, h1, h2]
    by_cases h : entryMatchesB term (i, t, d) = true
    · simp [h]
    · simp only [Bool.not_eq_true] at h
      simp [h]
  | .collection i t d cs :: rest => by
    have h1 := searchChildren_eq term cs
    have h2 := searchChildren_eq term rest
    simp only [searchChildren, descEntriesList, List.filter_cons, List.filter_append,
      List.map_append, h1, h2]
    by_cases h : entryMatchesB term (i, t, d) = true
    · simp [h]
    · simp only [Bool.not_eq_true] at h
      simp [h]
  | .item i t d as :: rest => by
    have h2 := searchChildren_eq term rest
    have ha := searchAssets_eq term as
    simp only [searchChildren, descEntriesList, List.filter_cons, List.filter_append,
      List.map_append, h2, ha]
    by_cases h : entryMatchesB term (i, t, d) = true
    · simp [h]
    · simp only [Bool.not_eq_true] at h
      simp [h]

theorem searchConstructions_eq : (ns : List StacNode) →
    searchConstructions ns = (descEntriesList ns).length
  | [] => by simp [searchConstructions, descEntriesList]
  | .catalog _ _ _ cs :: rest => by
    have h1 := searchConstructions_eq cs
    have h2 := searchConstructions_eq rest
    simp only [searchConstructions, descEntriesList, List.length_cons, List.length_append,
      h1, h2]
    omega
  | .collection _ _ _ cs :: rest => by
    have h1 := searchConstructions_eq cs
    have h2 := searchConstructions_eq rest
    simp only [searchConstructions, descEntriesList, List.length_cons, List.length_append,
      h1, h2]
    omega
  | .item _ _ _ as :: rest => by
    have h2 := searchConstructions_eq rest
    simp only [searchConstructions, descEntriesList, List.length_cons, List.length_append,
      List.length_map, h2]
    omega

/-- A concrete STAC tree used to instantiate witnesses: a Collection holding
one Item with two Assets and one sub-Catalog holding a further Item. -/
def sampleTree : StacNode :=
  StacNode.collection "col" (some "Sample collection") none
    [ StacNode.item "itemA" (some "Houston scene") (some "RGB image")
        [ ("thumbnail", ⟨"http://x/thumb.png", "image/png", some "Thumbnail", []⟩),
          ("mosaic", ⟨"http://x/mosaic.tif", "image/tiff; application=geotiff", none, []⟩) ],
      StacNode.catalog "sub" none none
        [ StacNode.item "itemB" none (some "Radar scene") [] ] ]

/-- Claim C1: for every wrapper node and every string term, `search term`
returns exactly the identifiers of the descendant entries (at any depth)
whose id, title, or description contains the term as a case-sensitive
substring — literally the first projections of the filtered descendant-entry
list, in traversal order — and returns the empty result when no descendant
entry matches. -/
theorem search_exact_keys (s : WrapperState) (term : String) :
    search s term =
      ((descEntriesList (subNodes s.node)).filter (entryMatchesB term)).map Prod.fst ∧
    ((∀ e ∈ descEntriesList (subNodes s.node), entryMatchesB term e = false) →
      search s term = []) := by
  have heq : search s term =
      ((descEntriesList (subNodes s.node)).filter (entryMatchesB term)).map Prod.fst :=
    searchChildren_eq term (subNodes s.node)
  refine ⟨heq, ?_⟩
  intro hall
  rw [heq]
  have hf : (descEntriesList (subNodes s.node)).filter (entryMatchesB term) = [] := by
    rw [List.filter_eq_nil_iff]
    intro e he
    simp [hall e he]
  rw [hf]
  rfl

/-- Claim C1 witness: on the concrete sample tree, a term matching no
descendant yields the empty result. -/
theorem search_exact_keys_witness :
    search (mkWrapper sampleTree) "zzz" = [] :=
  (search_exact_keys (mkWrapper sampleTree) "zzz").2 (by
    simp only [mkWrapper, sampleTree, subNodes, descEntriesList, List.map_cons, List.map_nil,
      assetEntry]
    decide)

/-- Claim C8: constructing a wrapper materializes nothing — its cache is
empty, zero external parses have happened, and only the child identifiers are
discovered — each child wrapper is constructed exactly on its first access
(one fresh instance, one parse), and the search traversal is the operation
that forces full expansion, constructing one wrapper per descendant entry. -/
theorem lazy_construction (n : StacNode) :
    (mkWrapper n).cache = [] ∧
    (mkWrapper n).parses = 0 ∧
    list_keys (mkWrapper n) = childKeys n ∧
    searchConstructions (subNodes n) = (descEntriesList (subNodes n)).length ∧
    (∀ k, k ∈ list_keys (mkWrapper n) →
      get (mkWrapper n) k = Except.ok (0, ⟨n, [(k, 0)], 1, 1⟩)) := by
  refine ⟨rfl, rfl, rfl, searchConstructions_eq (subNodes n), ?_⟩
  intro k hk
  have hk' : k ∈ list_keys (⟨n, [], 0, 0⟩ : WrapperState) := hk
  simp [get, mkWrapper, hk', lookupA]

/-- Claim C8 witness: on the concrete sample tree, the first access to child
`itemA` constructs instance 0 with exactly one parse. -/
theorem lazy_construction_witness :
    get (mkWrapper sampleTree) "itemA" =
      Except.ok (0, ⟨sampleTree, [("itemA", 0)], 1, 1⟩) :=
  (lazy_construction sampleTree).2.2.2.2 "itemA" (by decide)

/-- Claim C4: `resolve_driver` matches the asset's declared media type by
exact string against the static dispatch table (so the GeoTIFF media type
resolves to the GeoTIFF loader's name); when no exact match exists it falls
back to the heuristics on the URL's file extension; when still unresolved it
fails with `UnsupportedAssetType`. -/
theorem resolve_driver_dispatch (a : Asset) :
    (a.media_type = "image/tiff; application=geotiff" →
      ∃ kw, resolve_driver a = Except.ok ("geotiff", kw)) ∧
    (∀ drv defaults, lookupA dispatchTable a.media_type = some (drv, defaults) →
      resolve_driver a = Except.ok (drv, mergeKwargs defaults a.open_kwargs)) ∧
    (lookupA dispatchTable a.media_type = none →
      ∀ drv defaults, (fileExt a.href).bind extDriver = some (drv, defaults) →
        resolve_driver a = Except.ok (drv, mergeKwargs defaults a.open_kwargs)) ∧
    (lookupA dispatchTable a.media_type = none →
      (fileExt a.href).bind extDriver = none →
      resolve_driver a = Except.error StacError.UnsupportedAssetType) := by
  refine ⟨?_, ?_, ?_, ?_⟩
  · intro hm
    refine ⟨mergeKwargs [("chunks", KwVal.strV "auto")] a.open_kwargs, ?_⟩
    simp [resolve_driver, hm, dispatchTable, lookupA]
  · intro drv defaults h
    simp [resolve_driver, h]
  · intro hnone drv defaults h
    simp [resolve_driver, hnone, h]
  · intro hnone hext
    simp [resolve_driver, hnone, hext]

/-- Claim C4 witness: a concrete GeoTIFF asset resolves to the GeoTIFF
loader, and a concrete asset with an unrecognized media type and an unknown
file extension fails with `UnsupportedAssetType`. -/
theorem resolve_driver_dispatch_witness :
    (∃ kw, resolve_driver ⟨"http://x/mosaic.tif", "image/tiff; application=geotiff", none, []⟩ =
      Except.ok ("geotiff", kw)) ∧
    resolve_driver ⟨"http://x/file.xyz", "application/unknown", none, []⟩ =
      Except.error StacError.UnsupportedAssetType :=
  ⟨(resolve_driver_dispatch
      ⟨"http://x/mosaic.tif", "image/tiff; application=geotiff", none, []⟩).1 rfl,
   (resolve_driver_dispatch ⟨"http://x/file.xyz", "application/unknown", none, []⟩).2.2.2
      rfl rfl⟩

/-- Claim C5: when the dispatch table matches, the keyword set returned for
loading is the table defaults merged with the asset-level arguments: every
asset-level binding survives unchanged (precedence on collision), and keys
the asset does not bind fall back to the table defaults. -/
theorem merged_kwargs_precedence (a : Asset) (drv : String) (defaults : Kwargs)
    (htab : lookupA dispatchTable a.media_type = some (drv, defaults)) :
    resolve_driver a = Except.ok (drv, mergeKwargs defaults a.open_kwargs) ∧
    (∀ k v, lookupA a.open_kwargs k = some v →
      lookupA (mergeKwargs defaults a.open_kwargs) k = some v) ∧
    (∀ k, lookupA a.open_kwargs k = none →
      lookupA (mergeKwargs defaults a.open_kwargs) k = lookupA defaults k) := by
  refine ⟨by simp [resolve_driver, htab], ?_, ?_⟩
  · intro k v h
    rw [lookupKw_merge, h]
  · intro k h
    rw [lookupKw_merge, h]

/-- Claim C5 witness: an asset carrying `consolidated: true` over a default
entry lacking that key yields a merged set containing `consolidated: true`. -/
theorem merged_kwargs_precedence_witness :
    lookupA (mergeKwargs []
        (Asset.open_kwargs ⟨"http://x/data", "application/netcdf", none,
          [("consolidated", KwVal.boolV true)]⟩)) "consolidated" =
      some (KwVal.boolV true) :=
  (merged_kwargs_precedence
      ⟨"http://x/data", "application/netcdf", none, [("consolidated", KwVal.boolV true)]⟩
      "netcdf" [] rfl).2.1 "consolidated" (KwVal.boolV true) rfl

/-- Claim C7: when driver resolution succeeds and the external loader fails,
`to_array_handle` surfaces the loader's error to the caller unmodified (the
very same error value, only injected into the result sum), and it performs no
retries: its result depends only on the loader's first attempt. -/
theorem loader_error_propagated (load : Loader) (a : Asset) (drv : String)
    (kw : Kwargs) (le : LoaderError)
    (hres : resolve_driver a = Except.ok (drv, kw))
    (hld : load drv (urlpath a) kw 0 = Except.error le) :
    to_array_handle load a = Except.error (LoadError.loader le) ∧
    (∀ load2 : Loader, (∀ d u w, load2 d u w 0 = load d u w 0) →
      to_array_handle load2 a = to_array_handle load a) := by
  constructor
  · simp [to_array_handle, hres, hld]
  · intro load2 h0
    simp [to_array_handle, hres, h0]

/-- An external loader that always fails with a network error, used to
instantiate the propagation witness. -/
def failLoader : Loader :=
  fun _ _ _ _ => Except.error (LoaderError.network "connection refused")

/-- Claim C7 witness: a concrete netCDF asset with a failing loader surfaces
that loader's network error unchanged. -/
theorem loader_error_propagated_witness :
    to_array_handle failLoader ⟨"http://x/data.nc", "application/netcdf", none, []⟩ =
      Except.error (LoadError.loader (LoaderError.network "connection refused")) :=
  (loader_error_propagated failLoader
      ⟨"http://x/data.nc", "application/netcdf", none, []⟩
      "netcdf" (mergeKwargs [] []) (LoaderError.network "connection refused")
      rfl rfl).1

/-- Claim C9: when driver resolution fails, the Asset wrapper's exposed
fields are untouched — the asset state left by resolution is the original
asset, with its raw URL and metadata accessible unchanged. -/
theorem resolve_failure_frame (a : Asset) (e : StacError)
    (_h : (resolve_driver_st a).1 = Except.error e) :
    (resolve_driver_st a).2 = a ∧
    urlpath (resolve_driver_st a).2 = a.href ∧
    asset_metadata (resolve_driver_st a).2 = (a.media_type, a.title, a.open_kwargs) :=
  ⟨rfl, rfl, rfl⟩

/-- Claim C9 witness: a concrete PNG asset fails to resolve, and its URL and
metadata remain exactly as constructed. -/
theorem resolve_failure_frame_witness :
    (resolve_driver_st ⟨"http://x/thumb.png", "image/png", some "Thumbnail", []⟩).2 =
      (⟨"http://x/thumb.png", "image/png", some "Thumbnail", []⟩ : Asset) ∧
    urlpath (resolve_driver_st
        ⟨"http://x/thumb.png", "image/png", some "Thumbnail", []⟩).2 = "http://x/thumb.png" ∧
    asset_metadata (resolve_driver_st
        ⟨"http://x/thumb.png", "image/png", some "Thumbnail", []⟩).2 =
      ("image/png", some "Thumbnail", []) :=
  resolve_failure_frame ⟨"http://x/thumb.png", "image/png", some "Thumbnail", []⟩
    StacError.UnsupportedAssetType rfl

/-- Claim C10: the package registers exactly the four driver entry points
`stac_catalog`, `stac_collection`, `stac_item`, `stac_item_collection`, each
exposed as the corresponding `open_`-prefixed top-level constructor, and an
in-memory ItemCollection opens directly as a catalog wrapper whose keys are
the item identifiers. -/
theorem registry_entry_points :
    registered_drivers =
      ["stac_catalog", "stac_collection", "stac_item", "stac_item_collection"] ∧
    registered_drivers.length = 4 ∧
    top_level_constructors = registered_drivers.map (fun d => "open_" ++ d) ∧
    (∀ items : List StacNode,
      list_keys (open_stac_item_collection items) = items.map nodeId) :=
  ⟨rfl, rfl, rfl, fun _ => rfl⟩

end IntakeStac
